import Mathlib

/-!
# Verification of the preprocessing and model-configuration logic of
# `course_2.0/03_DNN_practical.ipynb`

A shallow embedding of the notebook's own data-wrangling code (label
derivation, truncation to 50000 rows, class balancing by downsampling)
and of its fixed configuration constants (network topology, early-stopping
callback), together with theorems settling the specification's claims.

The NumPy global pseudo-random generator is modelled as an explicit state
`Rng` threaded through the calls that consume it; `np.random.seed`
replaces the state, `np.random.choice` draws with replacement, and
`np.random.shuffle` permutes its argument.  The concrete step function is
a deterministic stand-in (a linear congruential generator) for the
library's Mersenne twister: none of the claims depends on the particular
bit stream, only on the draw/permute structure, which is proved for every
generator state.
-/

namespace DNNPractical

/-- The state of the NumPy global pseudo-random generator. -/
structure Rng where
  state : Nat
  deriving DecidableEq, Repr

/-- `np.random.seed n`: replace the global generator state. -/
def npSeed (n : Nat) : Rng :=
  ⟨n⟩

/-- One step of the generator: a deterministic stand-in (LCG) for the
library's Mersenne twister, returning a draw and the next state. -/
def rngStep (g : Rng) : Nat × Rng :=
  let s := (g.state * 1103515245 + 12345) % 2147483648
  (s, ⟨s⟩)

/-- `np.random.choice(pool, n)` (with replacement, the NumPy default):
draw `n` elements of `pool`, each selected by the generator. -/
def npChoice (pool : List Nat) : Nat → Rng → List Nat × Rng
  | 0, g => ([], g)
  | n + 1, g =>
      let p := rngStep g
      let x := pool.getD (p.1 % pool.length) 0
      let r := npChoice pool n p.2
      (x :: r.1, r.2)

/-- Auxiliary recursion for `npShuffle`, consuming one position per step:
pick a generator-selected index, emit that element, recurse on the rest. -/
def npShuffleAux : Nat → List Nat → Rng → List Nat × Rng
  | 0, _, g => ([], g)
  | n + 1, l, g =>
      let p := rngStep g
      let i := p.1 % l.length
      let r := npShuffleAux n (l.eraseIdx i) p.2
      (l.getD i 0 :: r.1, r.2)

/-- `np.random.shuffle(l)`: produce a generator-selected permutation of `l`. -/
def npShuffle (l : List Nat) (g : Rng) : List Nat × Rng :=
  npShuffleAux l.length l g

/-- `np.where(ys == v)[0]` with start offset `k`: the positions (in
increasing order, counted from `k`) whose entry equals `v`. -/
def idxOfAux (v : Nat) : List Nat → Nat → List Nat
  | [], _ => []
  | a :: t, k => if a = v then k :: idxOfAux v t (k + 1) else idxOfAux v t (k + 1)

/-- `np.where(ys == v)[0]`: the indices of `ys` whose entry equals `v`,
in increasing order. -/
def npWhereEq (ys : List Nat) (v : Nat) : List Nat :=
  idxOfAux v ys 0

/-- The input dataframe loaded from the pickle file: an `Elements` column
(a list of element-name strings per sample) and a `Spectra` column
(a list of numbers per sample). -/
structure DataFrame where
  elements : List (List String)
  spectra : List (List Int)

/-- `train_x = np.array(df['Spectra'].to_list())[:50000]`: the `Spectra`
column converted to an array and truncated to the first 50000 rows,
with no further processing. -/
def train_x (spectra : List (List Int)) : List (List Int) :=
  spectra.take 50000

/-- `train_y = np.array(['Ag' in elements for elements in
df['Elements']]).astype(int)[:50000]`: 1 where the sample's element list
contains the string Ag, 0 otherwise, truncated to the first 50000 rows. -/
def train_y (elements : List (List String)) : List Nat :=
  (elements.map (fun es => if "Ag" ∈ es then 1 else 0)).take 50000

/-- `id_no_Ag = np.where(train_y == 0)[0]`. -/
def id_no_Ag (ty : List Nat) : List Nat :=
  npWhereEq ty 0

/-- `id_with_Ag = np.where(train_y == 1)[0]`. -/
def id_with_Ag (ty : List Nat) : List Nat :=
  npWhereEq ty 1

/-- `id_no_Ag_downsample = np.random.choice(id_no_Ag, len(id_with_Ag))`:
the majority-class indices downsampled, with replacement, to the
minority-class count. -/
def id_no_Ag_downsample (ty : List Nat) (g : Rng) : List Nat × Rng :=
  npChoice (id_no_Ag ty) (id_with_Ag ty).length g

/-- `id_downsample = np.concatenate((id_with_Ag, id_no_Ag_downsample))`
followed by `np.random.shuffle(id_downsample)`. -/
def id_downsample (ty : List Nat) (g : Rng) : List Nat × Rng :=
  let c := id_no_Ag_downsample ty g
  npShuffle (id_with_Ag ty ++ c.1) c.2

/-- `train_x_balanced = train_x[id_downsample]`: NumPy fancy indexing by
the shuffled index array. -/
def train_x_balanced (tx : List (List Int)) (ty : List Nat) (g : Rng) :
    List (List Int) :=
  ((id_downsample ty g).1).map (fun i => tx.getD i [])

/-- `train_y_balanced = train_y[id_downsample]`: NumPy fancy indexing by
the shuffled index array. -/
def train_y_balanced (ty : List Nat) (g : Rng) : List Nat :=
  ((id_downsample ty g).1).map (fun i => ty.getD i 0)

/-! ## Fixed configuration constants of the notebook -/

/-- Activation functions named by the notebook's layer constructors. -/
inductive Activation
  | relu
  | sigmoid
  deriving DecidableEq, Repr

/-- A layer of the `Sequential` stack: `Dense(units, activation=...)` or
`Dropout(rate)` (the rate recorded in thousandths: `Dropout(0.001)` is 1). -/
inductive Layer
  | dense (units : Nat) (activation : Activation)
  | dropout (rateThousandths : Nat)
  deriving DecidableEq, Repr

/-- Whether a layer is a `Dense` layer. -/
def Layer.isDense : Layer → Bool
  | .dense _ _ => true
  | .dropout _ => false

/-- The width (`units`) of a layer (0 for `Dropout`). -/
def Layer.units : Layer → Nat
  | .dense u _ => u
  | .dropout _ => 0

/-- The activation of a layer (`none` for `Dropout`). -/
def Layer.activation : Layer → Option Activation
  | .dense _ a => some a
  | .dropout _ => none

/-- `input_dim=1000` of the first `Dense` layer. -/
def modelInputDim : Nat := 1000

/-- The `Sequential` model of the suggested answer in
"1. Try out a network": `Dense(64, input_dim=1000, activation='relu')`,
`Dense(32, 'relu')`, `Dense(16, 'relu')`, `Dense(8, 'relu')`,
`Dense(1, 'sigmoid')`. -/
def modelLayers : List Layer :=
  [Layer.dense 64 Activation.relu,
   Layer.dense 32 Activation.relu,
   Layer.dense 16 Activation.relu,
   Layer.dense 8 Activation.relu,
   Layer.dense 1 Activation.sigmoid]

/-- The re-defined model of the overfitting and early-stopping sections:
the same five `Dense` layers with `Dropout(0.001)` inserted after the
first. -/
def modelLayersDropout : List Layer :=
  [Layer.dense 64 Activation.relu,
   Layer.dropout 1,
   Layer.dense 32 Activation.relu,
   Layer.dense 16 Activation.relu,
   Layer.dense 8 Activation.relu,
   Layer.dense 1 Activation.sigmoid]

/-- The arguments of `tf.keras.callbacks.EarlyStopping` used by the
notebook. -/
structure EarlyStoppingConfig where
  monitor : String
  patience : Nat
  restore_best_weights : Bool
  deriving DecidableEq, Repr

/-- `callback = tf.keras.callbacks.EarlyStopping(monitor='loss',
patience=50, restore_best_weights=True)`. -/
def callback : EarlyStoppingConfig :=
  ⟨"loss", 50, true⟩

/-- The prefix that names validation metrics in the training history,
as used by the notebook's own `plot_history` (`'val_' + acc_str`,
`'val_loss'`). -/
def valMetricPrefix : String := "val_"

/-- Whether a metric name refers to a validation metric, i.e. starts with
the `val_` prefix of the notebook's `plot_history`. -/
def isValidationMetric (m : String) : Bool :=
  m.data.take valMetricPrefix.data.length == valMetricPrefix.data

/-! ## The preprocessing pipeline as one run of the notebook -/

/-- The whole random-dependent preprocessing of the notebook as a single
run: `np.random.seed(0)` replaces whatever generator state `gInit` the
process had, the plotting cell consumes three `np.random.choice(·, 4)`
draws (for the conditions no Ag, pure Ag, Ag-Si binary), and the
balancing cell computes `id_downsample`, `train_x_balanced` and
`train_y_balanced`.  Returns those three values. -/
def notebookPreprocess (gInit : Rng) (df : DataFrame) :
    List Nat × List (List Int) × List Nat :=
  let _ := gInit
  let g1 := npSeed 0
  let c1 := npChoice
    (npWhereEq (df.elements.map (fun es => if "Ag" ∈ es then 0 else 1)) 1) 4 g1
  let c2 := npChoice
    (npWhereEq (df.elements.map (fun es => if es = ["Ag"] then 1 else 0)) 1) 4 c1.2
  let c3 := npChoice
    (npWhereEq (df.elements.map (fun es => if es = ["Ag", "Si"] then 1 else 0)) 1) 4 c2.2
  let tx := train_x df.spectra
  let ty := train_y df.elements
  ((id_downsample ty c3.2).1, train_x_balanced tx ty c3.2, train_y_balanced ty c3.2)

/-! ## Basic properties of the embedded NumPy calls -/

/-- `np.random.choice(pool, n)` returns exactly `n` draws. -/
theorem npChoice_length (pool : List Nat) :
    ∀ (n : Nat) (g : Rng), ((npChoice pool n g).1).length = n := by
  intro n
  induction n with
  | zero => intro g; rfl
  | succ n ih =>
      intro g
      simp only [npChoice, List.length_cons, ih]

/-- Every draw of `np.random.choice(pool, n)` is an element of `pool`
(for a nonempty pool). -/
theorem npChoice_mem (pool : List Nat) (hpool : pool ≠ []) :
    ∀ (n : Nat) (g : Rng) (x : Nat), x ∈ (npChoice pool n g).1 → x ∈ pool := by
  intro n
  induction n with
  | zero => intro g x hx; simp [npChoice] at hx
  | succ n ih =>
      intro g x hx
      simp only [npChoice, List.mem_cons] at hx
      rcases hx with hx | hx
      · have hlen : 0 < pool.length := List.length_pos.2 hpool
        have hlt : (rngStep g).1 % pool.length < pool.length := Nat.mod_lt _ hlen
        rw [hx, List.getD_eq_getElem pool 0 hlt]
        exact List.getElem_mem hlt
      · exact ih _ _ hx

/-- Removing the selected element and consing it back is a permutation. -/
theorem getD_cons_eraseIdx_perm :
    ∀ (l : List Nat) (i : Nat), i < l.length →
      (l.getD i 0 :: l.eraseIdx i).Perm l := by
  intro l
  induction l with
  | nil => intro i h; simp at h
  | cons a t ih =>
      intro i h
      cases i with
      | zero => simp
      | succ i =>
          have hi : i < t.length := by simpa using h
          have hperm := ih i hi
          show (t.getD i 0 :: a :: t.eraseIdx i).Perm (a :: t)
          exact (List.Perm.swap a (t.getD i 0) (t.eraseIdx i)).trans (hperm.cons a)

/-- The auxiliary shuffle recursion permutes its input when the fuel
equals the input's length. -/
theorem npShuffleAux_perm :
    ∀ (n : Nat) (l : List Nat) (g : Rng), l.length = n →
      ((npShuffleAux n l g).1).Perm l := by
  intro n
  induction n with
  | zero =>
      intro l g hl
      rw [List.length_eq_zero.1 hl]
      exact List.Perm.refl _
  | succ n ih =>
      intro l g hl
      have hpos : 0 < l.length := by omega
      have hi : (rngStep g).1 % l.length < l.length := Nat.mod_lt _ hpos
      have herase : (l.eraseIdx ((rngStep g).1 % l.length)).length = n := by
        rw [List.length_eraseIdx]
        simp only [hi, if_true]
        omega
      have hrest := ih (l.eraseIdx ((rngStep g).1 % l.length)) (rngStep g).2 herase
      show (l.getD ((rngStep g).1 % l.length) 0 ::
          (npShuffleAux n (l.eraseIdx ((rngStep g).1 % l.length)) (rngStep g).2).1).Perm l
      exact (hrest.cons _).trans (getD_cons_eraseIdx_perm l _ hi)

/-- `np.random.shuffle` returns a permutation of its argument. -/
theorem npShuffle_perm (l : List Nat) (g : Rng) :
    ((npShuffle l g).1).Perm l :=
  npShuffleAux_perm l.length l g rfl

/-- The index list produced by `np.where(ys == v)[0]` (with offset `k`)
has as many entries as `ys` has entries equal to `v`. -/
theorem idxOfAux_length (v : Nat) :
    ∀ (ys : List Nat) (k : Nat), (idxOfAux v ys k).length = ys.count v := by
  intro ys
  induction ys with
  | nil => intro k; simp [idxOfAux]
  | cons a t ih =>
      intro k
      by_cases hav : a = v
      · simp [idxOfAux, hav, List.count_cons, ih]
      · simp [idxOfAux, hav, List.count_cons, ih, Ne.symm hav]

/-- Every index reported by `np.where(ys == v)[0]` (with offset `k`)
points at an entry of `ys` equal to `v`. -/
theorem mem_idxOfAux (v : Nat) :
    ∀ (ys : List Nat) (k j : Nat), j ∈ idxOfAux v ys k →
      k ≤ j ∧ j - k < ys.length ∧ ys.getD (j - k) 0 = v := by
  intro ys
  induction ys with
  | nil => intro k j hj; simp [idxOfAux] at hj
  | cons a t ih =>
      intro k j hj
      by_cases hav : a = v
      · simp only [idxOfAux, hav, if_true, List.mem_cons] at hj
        rcases hj with hj | hj
        · subst hj
          refine ⟨Nat.le_refl _, ?_, ?_⟩
          · simp
          · simp [hav]
        · obtain ⟨hk, hlen, hval⟩ := ih (k + 1) j hj
          refine ⟨by omega, by simp; omega, ?_⟩
          have : j - k = (j - (k + 1)) + 1 := by omega
          rw [this]
          simpa using hval
      · simp only [idxOfAux, hav, if_false] at hj
        obtain ⟨hk, hlen, hval⟩ := ih (k + 1) j hj
        refine ⟨by omega, by simp; omega, ?_⟩
        have : j - k = (j - (k + 1)) + 1 := by omega
        rw [this]
        simpa using hval

/-- `np.where(ys == v)[0]` has as many entries as `ys` has entries
equal to `v`. -/
theorem npWhereEq_length (ys : List Nat) (v : Nat) :
    (npWhereEq ys v).length = ys.count v :=
  idxOfAux_length v ys 0

/-- Every index in `np.where(ys == v)[0]` is in range and points at an
entry equal to `v`. -/
theorem npWhereEq_spec (ys : List Nat) (v j : Nat) (hj : j ∈ npWhereEq ys v) :
    j < ys.length ∧ ys.getD j 0 = v := by
  obtain ⟨-, hlen, hval⟩ := mem_idxOfAux v ys 0 j hj
  simpa using And.intro hlen hval

/-- If `v` occurs in `ys` then `np.where(ys == v)[0]` is nonempty. -/
theorem npWhereEq_ne_nil (ys : List Nat) (v : Nat) (hv : v ∈ ys) :
    npWhereEq ys v ≠ [] := by
  have hcount : 0 < ys.count v := List.count_pos_iff.2 hv
  have hlen := npWhereEq_length ys v
  intro hnil
  rw [hnil] at hlen
  simp at hlen
  omega

/-- Counting a value in a fancy-indexed list `ty[ids]` is counting the
selecting indices whose entry has that value. -/
theorem count_map_getD (ty ids : List Nat) (c : Nat) :
    (ids.map (fun i => ty.getD i 0)).count c
      = ids.countP (fun i => ty.getD i 0 == c) := by
  rw [List.count, List.countP_map]
  rfl

/-- `getD` through `List.map` at an in-range index. -/
theorem getD_map_of_lt {α β : Type} (l : List α) (f : α → β) (d : β) (d' : α)
    (i : Nat) (hi : i < l.length) :
    (l.map f).getD i d = f (l.getD i d') := by
  rw [List.getD_eq_getElem _ _ (by simpa using hi), List.getElem_map,
    List.getD_eq_getElem _ _ hi]

/-- `getD` through `List.take` at an in-range index. -/
theorem getD_take_of_lt {α : Type} (l : List α) (n i : Nat) (d : α)
    (hin : i < n) (hil : i < l.length) :
    (l.take n).getD i d = l.getD i d := by
  have h1 : i < (l.take n).length := by simp; omega
  rw [List.getD_eq_getElem _ _ h1, List.getD_eq_getElem _ _ hil,
    List.getElem_take]

/-- The derived label at an in-range row is 1 exactly when the row's
element list contains Ag. -/
theorem train_y_getD (elements : List (List String)) (i : Nat)
    (h50 : i < 50000) (hlen : i < elements.length) :
    (train_y elements).getD i 0
      = if "Ag" ∈ elements.getD i [] then 1 else 0 := by
  show ((elements.map (fun es => if "Ag" ∈ es then 1 else 0)).take 50000).getD i 0 = _
  rw [getD_take_of_lt _ 50000 i 0 h50 (by simpa using hlen),
    getD_map_of_lt elements _ 0 [] i hlen]

/-- The shape consistency the code relies on but never checks: every
spectrum of the file has the length expected by the network's input. -/
def shapeConsistent (df : DataFrame) : Prop :=
  ∀ s ∈ df.spectra, s.length = modelInputDim

/-! ## Concrete inputs used by the witness theorems -/

/-- A small concrete label array with both classes present. -/
def tyW : List Nat := [0, 1, 0]

/-- A small concrete spectra array matching `tyW`. -/
def txW : List (List Int) := [[5], [6], [7]]

/-- A concrete generator state. -/
def gW : Rng := ⟨0⟩

/-- A small concrete `Elements` column. -/
def elemsW : List (List String) := [["Fe"], ["Ag", "Si"]]

/-- A dataframe violating the documented shape and positivity of spectra:
one negative entry, ragged row lengths, rows shorter than 1000. -/
def dfInvalidW : DataFrame := ⟨[["Fe"]], [[-1], [2, 2, 2]]⟩

/-- A dataframe of 50000 samples whose spectra all have length 1000. -/
def dfBigW : DataFrame :=
  ⟨List.replicate 50000 ["Ag"], List.replicate 50000 (List.replicate 1000 (0 : Int))⟩

/-! ## The claims -/

/-- C1: the class-balancing step draws exactly `len(id_with_Ag)` indices
(possibly with repeats) from the indices where `train_y == 0`,
concatenates them with all indices where `train_y == 1`, shuffles the
combined index array, and selects `train_x_balanced` and
`train_y_balanced` by that index array. -/
theorem c1_downsampling_pipeline (tx : List (List Int)) (ty : List Nat)
    (g : Rng) (h0 : 0 ∈ ty) :
    ((id_no_Ag_downsample ty g).1).length = (id_with_Ag ty).length ∧
    (∀ j ∈ (id_no_Ag_downsample ty g).1, j ∈ id_no_Ag ty ∧ ty.getD j 0 = 0) ∧
    ((id_downsample ty g).1).Perm
      (id_with_Ag ty ++ (id_no_Ag_downsample ty g).1) ∧
    train_x_balanced tx ty g
      = ((id_downsample ty g).1).map (fun i => tx.getD i []) ∧
    train_y_balanced ty g
      = ((id_downsample ty g).1).map (fun i => ty.getD i 0) := by
  refine ⟨npChoice_length _ _ _, ?_, npShuffle_perm _ _, rfl, rfl⟩
  intro j hj
  have hjmem : j ∈ id_no_Ag ty :=
    npChoice_mem _ (npWhereEq_ne_nil ty 0 h0) _ _ j hj
  exact ⟨hjmem, (npWhereEq_spec ty 0 j hjmem).2⟩

/-- C1 witness: the pipeline property at a concrete input. -/
theorem c1_downsampling_pipeline_witness :
    0 ∈ tyW ∧
    (((id_no_Ag_downsample tyW gW).1).length = (id_with_Ag tyW).length ∧
     (∀ j ∈ (id_no_Ag_downsample tyW gW).1,
        j ∈ id_no_Ag tyW ∧ tyW.getD j 0 = 0) ∧
     ((id_downsample tyW gW).1).Perm
       (id_with_Ag tyW ++ (id_no_Ag_downsample tyW gW).1) ∧
     train_x_balanced txW tyW gW
       = ((id_downsample tyW gW).1).map (fun i => txW.getD i []) ∧
     train_y_balanced tyW gW
       = ((id_downsample tyW gW).1).map (fun i => tyW.getD i 0)) :=
  ⟨by decide, c1_downsampling_pipeline txW tyW gW (by decide)⟩

/-- C2: after downsampling, the balanced labels have equal counts per
class, each equal to the number of with-Ag samples of `train_y` — a
deterministic consequence of the balancing code of the notebook, proved
for every label array with both classes present and every generator
state; the balanced array accordingly has twice that many entries in
total. -/
theorem c2_downsample_equalizes_class_counts (ty : List Nat) (g : Rng)
    (h0 : 0 ∈ ty) (_h1 : 1 ∈ ty) :
    (train_y_balanced ty g).count 0 = (train_y_balanced ty g).count 1 ∧
    (train_y_balanced ty g).count 1 = ty.count 1 ∧
    (train_y_balanced ty g).length = 2 * ty.count 1 := by
  have hpool : id_no_Ag ty ≠ [] := npWhereEq_ne_nil ty 0 h0
  have hperm : ((id_downsample ty g).1).Perm
      (id_with_Ag ty ++ (id_no_Ag_downsample ty g).1) := npShuffle_perm _ _
  have hcount : ∀ c : Nat, (train_y_balanced ty g).count c =
      (id_with_Ag ty).countP (fun i => ty.getD i 0 == c) +
      ((id_no_Ag_downsample ty g).1).countP (fun i => ty.getD i 0 == c) := by
    intro c
    calc (train_y_balanced ty g).count c
        = ((id_downsample ty g).1).countP (fun i => ty.getD i 0 == c) :=
          count_map_getD ty ((id_downsample ty g).1) c
      _ = (id_with_Ag ty ++ (id_no_Ag_downsample ty g).1).countP
            (fun i => ty.getD i 0 == c) := hperm.countP_eq _
      _ = _ := List.countP_append _ _ _
  have hwith1 : (id_with_Ag ty).countP (fun i => ty.getD i 0 == 1)
      = ty.count 1 := by
    have hall : ∀ j ∈ id_with_Ag ty, (ty.getD j 0 == 1) = true := by
      intro j hj
      simpa using (npWhereEq_spec ty 1 j hj).2
    calc (id_with_Ag ty).countP (fun i => ty.getD i 0 == 1)
        = (id_with_Ag ty).length := List.countP_eq_length.2 hall
      _ = ty.count 1 := npWhereEq_length ty 1
  have hwith0 : (id_with_Ag ty).countP (fun i => ty.getD i 0 == 0) = 0 := by
    refine List.countP_eq_zero.2 ?_
    intro j hj hcontra
    have hv := (npWhereEq_spec ty 1 j hj).2
    have hc : (ty.getD j 0 == 0) = true := hcontra
    rw [hv] at hc
    exact absurd hc (by decide)
  have hd0 : ((id_no_Ag_downsample ty g).1).countP (fun i => ty.getD i 0 == 0)
      = ty.count 1 := by
    have hall : ∀ j ∈ (id_no_Ag_downsample ty g).1,
        (ty.getD j 0 == 0) = true := by
      intro j hj
      have hjmem : j ∈ id_no_Ag ty := npChoice_mem _ hpool _ _ j hj
      simpa using (npWhereEq_spec ty 0 j hjmem).2
    calc ((id_no_Ag_downsample ty g).1).countP (fun i => ty.getD i 0 == 0)
        = ((id_no_Ag_downsample ty g).1).length := List.countP_eq_length.2 hall
      _ = (id_with_Ag ty).length := npChoice_length _ _ _
      _ = ty.count 1 := npWhereEq_length ty 1
  have hd1 : ((id_no_Ag_downsample ty g).1).countP
      (fun i => ty.getD i 0 == 1) = 0 := by
    refine List.countP_eq_zero.2 ?_
    intro j hj hcontra
    have hjmem : j ∈ id_no_Ag ty := npChoice_mem _ hpool _ _ j hj
    have hv := (npWhereEq_spec ty 0 j hjmem).2
    have hc : (ty.getD j 0 == 1) = true := hcontra
    rw [hv] at hc
    exact absurd hc (by decide)
  refine ⟨?_, ?_, ?_⟩
  · rw [hcount 0, hcount 1, hwith0, hwith1, hd0, hd1]
    omega
  · rw [hcount 1, hwith1, hd1]
    omega
  · calc (train_y_balanced ty g).length
        = ((id_downsample ty g).1).length := List.length_map _ _
      _ = (id_with_Ag ty).length + ((id_no_Ag_downsample ty g).1).length := by
          rw [hperm.length_eq, List.length_append]
      _ = 2 * ty.count 1 := by
          have e1 : (id_with_Ag ty).length = ty.count 1 := npWhereEq_length ty 1
          have e2 : ((id_no_Ag_downsample ty g).1).length = (id_with_Ag ty).length :=
            npChoice_length _ _ _
          omega

/-- C2 witness: equal class counts at a concrete input. -/
theorem c2_downsample_equalizes_class_counts_witness :
    0 ∈ tyW ∧ 1 ∈ tyW ∧
    ((train_y_balanced tyW gW).count 0 = (train_y_balanced tyW gW).count 1 ∧
     (train_y_balanced tyW gW).count 1 = tyW.count 1 ∧
     (train_y_balanced tyW gW).length = 2 * tyW.count 1) :=
  ⟨by decide, by decide,
   c2_downsample_equalizes_class_counts tyW gW (by decide) (by decide)⟩

/-- C3: for every in-range row, the derived label equals 1 exactly when
the string Ag is a member of that row's element list, and 0 otherwise,
by a set-membership test alone. -/
theorem c3_label_is_membership (elements : List (List String)) (i : Nat)
    (hi : i < (train_y elements).length) :
    (train_y elements).getD i 0
      = if "Ag" ∈ elements.getD i [] then 1 else 0 := by
  have hlen : (train_y elements).length = min 50000 elements.length := by
    simp [train_y]
  rw [hlen] at hi
  exact train_y_getD elements i (by omega) (by omega)

/-- C3 witness: the label rule at a concrete input. -/
theorem c3_label_is_membership_witness :
    1 < (train_y elemsW).length ∧
    (train_y elemsW).getD 1 0 = if "Ag" ∈ elemsW.getD 1 [] then 1 else 0 :=
  ⟨by decide, c3_label_is_membership elemsW 1 (by decide)⟩

/-- C4: the EarlyStopping callback as actually constructed: patience 50
and restore_best_weights are as the claim says, but the monitored
quantity is the training loss `loss`, which is not a validation metric
(validation metrics carry the `val_` prefix, as in the notebook's own
`plot_history`). -/
theorem c4_callback_monitors_training_loss :
    callback.monitor = "loss" ∧
    callback.patience = 50 ∧
    callback.restore_best_weights = true ∧
    isValidationMetric callback.monitor = false := by
  refine ⟨rfl, rfl, rfl, ?_⟩
  decide

/-- C5: the model is a sequential stack of exactly five Dense layers of
strictly decreasing widths 64, 32, 16, 8, 1, the first four with ReLU
activation and the last with sigmoid; the dropout variant of the later
sections keeps exactly the same five Dense layers. -/
theorem c5_model_topology :
    modelLayers.length = 5 ∧
    (∀ l ∈ modelLayers, l.isDense = true) ∧
    modelLayers.map Layer.units = [64, 32, 16, 8, 1] ∧
    modelLayers.map Layer.activation =
      [some Activation.relu, some Activation.relu, some Activation.relu,
       some Activation.relu, some Activation.sigmoid] ∧
    List.Chain' (fun a b => b < a) (modelLayers.map Layer.units) ∧
    modelLayersDropout.filter Layer.isDense = modelLayers := by
  refine ⟨rfl, ?_, rfl, rfl, ?_, rfl⟩
  · decide
  · rw [show modelLayers.map Layer.units = [64, 32, 16, 8, 1] from rfl]
    norm_num [List.chain'_cons]

/-- C6: the input contract: the dataframe carries an `Elements` and a
`Spectra` column, the network's `input_dim` is the documented spectrum
length 1000, every training row is a raw spectrum taken verbatim from
the file, and the shape consistency is nowhere checked: even a dataframe
violating it flows through the extraction unchanged. -/
theorem c6_input_contract :
    modelInputDim = 1000 ∧
    (∀ df : DataFrame, ∀ s ∈ train_x df.spectra, s ∈ df.spectra) ∧
    (∀ df : DataFrame, train_x df.spectra = df.spectra.take 50000) ∧
    (∃ df : DataFrame, ¬ shapeConsistent df ∧
      train_x df.spectra = df.spectra.take 50000) := by
  refine ⟨rfl, ?_, fun df => rfl, ?_⟩
  · intro df s hs
    exact List.take_subset 50000 df.spectra hs
  · refine ⟨⟨[], [[]]⟩, ?_, rfl⟩
    intro h
    have h0 := h [] (by simp)
    simp [modelInputDim] at h0

/-- C7: the path from file load to training-data extraction has no
validation of its own: `train_x` is the direct column-to-array conversion
truncated to 50000 rows, `train_y` the direct membership map, and even an
ill-shaped, negative-valued row passes through verbatim. -/
theorem c7_no_validation_logic (df : DataFrame) (i : Nat)
    (h50 : i < 50000) (hlen : i < df.spectra.length) :
    train_x df.spectra = df.spectra.take 50000 ∧
    train_y df.elements
      = (df.elements.map (fun es => if "Ag" ∈ es then 1 else 0)).take 50000 ∧
    (train_x df.spectra).getD i [] = df.spectra.getD i [] := by
  refine ⟨rfl, rfl, ?_⟩
  exact getD_take_of_lt df.spectra 50000 i [] h50 hlen

/-- C7 witness: an invalid dataframe passes through unchanged. -/
theorem c7_no_validation_logic_witness :
    1 < 50000 ∧ 1 < dfInvalidW.spectra.length ∧
    (train_x dfInvalidW.spectra = dfInvalidW.spectra.take 50000 ∧
     train_y dfInvalidW.elements
       = (dfInvalidW.elements.map
           (fun es => if "Ag" ∈ es then 1 else 0)).take 50000 ∧
     (train_x dfInvalidW.spectra).getD 1 [] = dfInvalidW.spectra.getD 1 []) :=
  ⟨by decide, by decide, c7_no_validation_logic dfInvalidW 1 (by decide) (by decide)⟩

/-- C8: the balancing step preserves the spectrum-label pairing: position
`i` of the balanced arrays carries the spectrum and the label of the same
original sample `id_downsample[i]`. -/
theorem c8_pairing_preserved (tx : List (List Int)) (ty : List Nat) (g : Rng)
    (i : Nat) (hi : i < ((id_downsample ty g).1).length) :
    (train_x_balanced tx ty g).getD i []
      = tx.getD (((id_downsample ty g).1).getD i 0) [] ∧
    (train_y_balanced ty g).getD i 0
      = ty.getD (((id_downsample ty g).1).getD i 0) 0 := by
  constructor
  · exact getD_map_of_lt ((id_downsample ty g).1) (fun j => tx.getD j []) [] 0 i hi
  · exact getD_map_of_lt ((id_downsample ty g).1) (fun j => ty.getD j 0) 0 0 i hi

/-- C8 witness: the pairing at a concrete input. -/
theorem c8_pairing_preserved_witness :
    0 < ((id_downsample tyW gW).1).length ∧
    ((train_x_balanced txW tyW gW).getD 0 []
       = txW.getD (((id_downsample tyW gW).1).getD 0 0) [] ∧
     (train_y_balanced tyW gW).getD 0 0
       = tyW.getD (((id_downsample tyW gW).1).getD 0 0) 0) :=
  ⟨by decide, c8_pairing_preserved txW tyW gW 0 (by decide)⟩

/-- C9: the preprocessing is deterministic across runs: since
`np.random.seed(0)` replaces the generator state before any random call,
two executions from arbitrary (and possibly different) prior generator
states produce identical `id_downsample`, `train_x_balanced` and
`train_y_balanced`. -/
theorem c9_preprocessing_deterministic (g g' : Rng) (df : DataFrame) :
    notebookPreprocess g df = notebookPreprocess g' df := rfl

/-- C10: the training input is the full 1000-point spectrum of each
sample: `train_x` has 50000 rows of length `input_dim = 1000`, each row
the verbatim `Spectra` entry, and `train_x[i]`, `train_y[i]` come from
the same sample `i` of the first 50000 rows. -/
theorem c10_full_spectrum_training_input (df : DataFrame)
    (hx : 50000 ≤ df.spectra.length)
    (hlen : ∀ s ∈ df.spectra, s.length = 1000) :
    (train_x df.spectra).length = 50000 ∧
    (∀ s ∈ train_x df.spectra, s.length = modelInputDim) ∧
    (∀ i, i < 50000 → (train_x df.spectra).getD i [] = df.spectra.getD i []) ∧
    (∀ i, i < 50000 → i < df.elements.length →
      (train_y df.elements).getD i 0
        = if "Ag" ∈ df.elements.getD i [] then 1 else 0) := by
  refine ⟨?_, ?_, ?_, ?_⟩
  · simp only [train_x, List.length_take]
    omega
  · intro s hs
    exact hlen s (List.take_subset 50000 df.spectra hs)
  · intro i hi
    exact getD_take_of_lt df.spectra 50000 i [] hi (by omega)
  · intro i hi hie
    exact train_y_getD df.elements i hi hie

/-- C10 witness: the full-spectrum property at a concrete dataframe of
50000 samples with length-1000 spectra. -/
theorem c10_full_spectrum_training_input_witness :
    50000 ≤ dfBigW.spectra.length ∧
    (∀ s ∈ dfBigW.spectra, s.length = 1000) ∧
    ((train_x dfBigW.spectra).length = 50000 ∧
     (∀ s ∈ train_x dfBigW.spectra, s.length = modelInputDim) ∧
     (∀ i, i < 50000 →
       (train_x dfBigW.spectra).getD i [] = dfBigW.spectra.getD i []) ∧
     (∀ i, i < 50000 → i < dfBigW.elements.length →
       (train_y dfBigW.elements).getD i 0
         = if "Ag" ∈ dfBigW.elements.getD i [] then 1 else 0)) := by
  have h1 : 50000 ≤ dfBigW.spectra.length := by
    show 50000 ≤ (List.replicate 50000 (List.replicate 1000 (0 : Int))).length
    rw [List.length_replicate]
  have h2 : ∀ s ∈ dfBigW.spectra, s.length = 1000 := by
    intro s hs
    rw [List.eq_of_mem_replicate
      (show s ∈ List.replicate 50000 (List.replicate 1000 (0 : Int)) from hs),
      List.length_replicate]
  exact ⟨h1, h2, c10_full_spectrum_training_input dfBigW h1 h2⟩

end DNNPractical
